import Mathlib

/-!
Shallow embedding of the QuickShop support-chat backend (`server.ts`):
an Express app over a two-table SQLite store (`conversations`,
`messages`) with a chat endpoint that validates input, resolves or
creates a conversation, persists the user turn, builds a context window
from the most recent stored messages, calls the Groq completion API
through a fixed-order model-fallback loop, persists the assistant turn
and responds.  Auxiliary endpoints fetch, export and delete a
conversation.

Modelling conventions:
 - SQLite rows become Lean structures; the database is a record of row
   lists in insertion order plus a `counter` feeding `uuidv4` id
   generation and a `clock` feeding `CURRENT_TIMESTAMP`.  SQLite's
   `CURRENT_TIMESTAMP` has one-second granularity, so consecutive
   inserts routinely share a timestamp: an insert stamps the row with
   the current clock value and does NOT advance it; wall time passing
   between requests is a separate environment step (`advanceClock`).
   Stamps are therefore non-decreasing in insertion order, with ties.
   `ORDER BY created_at` on non-decreasing stamps returns rows in
   insertion order (within equal keys the `(conversation_id,
   created_at)` index scan yields rowid order), which the model
   realises as `List.filter`.
 - The Groq client is an oracle `Provider` mapping the sent turn list
   and model name to either an error (carrying the HTTP status the SDK
   exposes as `error.status`) or `choices[0]?.message?.content`
   (`Option String`, `none` for missing content).
 - JavaScript string falsiness (`!s` true exactly on the empty string)
   is modelled explicitly where the handler relies on it.
-/

/-- The `sender` column: the handler only ever writes `user` or `ai`. -/
inductive Sender where
  | user
  | ai
deriving DecidableEq, Repr

/-- A row of the `messages` table
(`id, conversation_id, sender, text, created_at`). -/
structure MessageRow where
  id : String
  conversationId : String
  sender : Sender
  text : String
  createdAt : Nat
deriving DecidableEq, Repr

/-- A row of the `conversations` table (`id, created_at`). -/
structure ConversationRow where
  id : String
  createdAt : Nat
deriving DecidableEq, Repr

/-- The SQLite database plus the two ambient generators the handlers
draw on: `counter` models the `uuidv4()` stream and `clock` models
`CURRENT_TIMESTAMP` in whole seconds (inserts read it without
advancing it; see module docstring). -/
structure DB where
  conversations : List ConversationRow
  messages : List MessageRow
  counter : Nat
  clock : Nat
deriving DecidableEq, Repr

/-- Model of `uuidv4()`: the `n`-th generated identifier. -/
def uuidv4 (n : Nat) : String :=
  "uuid-" ++ toString n

/-- Draw a fresh id from the `uuidv4` stream. -/
def freshUuid (st : DB) : String × DB :=
  (uuidv4 st.counter, { st with counter := st.counter + 1 })

/-- Statement `INSERT INTO conversations (id) VALUES (?)`:
`created_at` defaults to the current (second-granular) timestamp. -/
def insertConversation (st : DB) (id : String) : DB :=
  { st with conversations := st.conversations ++ [⟨id, st.clock⟩] }

/-- Statement `INSERT INTO messages (id, conversation_id, sender,
text) VALUES (?, ?, ?, ?)`: `created_at` defaults to the current
timestamp, which is second-granular, so an insert does not advance the
clock — two inserts of one fast request share a stamp. -/
def insertMessage (st : DB) (id convId : String) (sender : Sender)
    (text : String) : DB :=
  { st with
    messages := st.messages ++ [⟨id, convId, sender, text, st.clock⟩] }

/-- A `uuidv4()` call followed by the message `INSERT` (the
`saveUserMsg.run` / `saveAiMsg.run` pattern of the handler). -/
def saveMessage (st : DB) (convId : String) (sender : Sender)
    (text : String) : DB :=
  insertMessage (freshUuid st).2 (freshUuid st).1 convId sender text

/-- Query `SELECT id FROM conversations WHERE id = ?` used as an
existence check. -/
def conversationExists (st : DB) (id : String) : Bool :=
  st.conversations.any (fun c => c.id == id)

/-- Query `SELECT * FROM conversations WHERE id = ?`. -/
def findConversation (st : DB) (id : String) : Option ConversationRow :=
  st.conversations.find? (fun c => c.id == id)

/-- All messages of a conversation, `ORDER BY created_at ASC`: stamps
are non-decreasing in insertion order and equal stamps come back in
rowid (insertion) order from the `(conversation_id, created_at)` index
scan, so the filtered list is exactly the query result. -/
def messagesOf (st : DB) (convId : String) : List MessageRow :=
  st.messages.filter (fun m => m.conversationId == convId)

/-- The history query of the chat endpoint:
`SELECT ... ORDER BY created_at DESC LIMIT 6` followed by the
JavaScript `.reverse()`. -/
def recentHistory (st : DB) (convId : String) : List MessageRow :=
  ((messagesOf st convId).reverse.take 6).reverse

/-- The static support-agent persona sent as the system turn.
(Abridged transcription of the `STORE_INFO` constant: the prose content
is inert for the model; what matters is that it is one fixed string.) -/
def STORE_INFO : String :=
  "You are \"Alex\", a friendly and helpful customer support agent for QuickShop e-commerce store. IMPORTANT GUIDELINES: be conversational and natural, greet customers warmly, only share store information when asked, keep responses concise but helpful. STORE INFORMATION: Returns: 30-day return policy, items must be unused with original tags. Shipping: free shipping on orders over $50, standard 5-7 business days. Support Hours: Monday-Friday, 9:00 AM - 6:00 PM EST. Contact: support@quickshop.com or call 1-800-QUICK-SHOP. Payment: Visa, Mastercard, Amex, PayPal, Apple Pay. Be helpful, friendly, and professional."

/-- Chat-completion roles. -/
inductive Role where
  | system
  | user
  | assistant
deriving DecidableEq, Repr

/-- One element of the `messages` array sent to
`groq.chat.completions.create`. -/
structure ChatTurn where
  role : Role
  content : String
deriving DecidableEq, Repr

/-- Translation `msg.sender === 'user' ? 'user' : 'assistant'`. -/
def roleOfSender : Sender → Role
  | .user => .user
  | .ai => .assistant

/-- Assembly of the `messages` array: the system turn, then the history
turns, then the current user message. -/
def buildMessages (history : List MessageRow) (userMessage : String) :
    List ChatTurn :=
  ⟨.system, STORE_INFO⟩ ::
    (history.map (fun m => ⟨roleOfSender m.sender, m.text⟩) ++
      [⟨.user, userMessage⟩])

/-- An error thrown by the Groq SDK; the handler only inspects
`error.status` (absent for transport errors). -/
structure ApiErr where
  status : Option Nat
deriving DecidableEq, Repr

/-- The completion provider as an oracle: given the sent turns and a
model name, either an SDK error or `choices[0]?.message?.content`. -/
def Provider : Type :=
  List ChatTurn → String → Except ApiErr (Option String)

/-- The fixed candidate list `modelsToTry`. -/
def modelsToTry : List String :=
  ["llama-3.1-8b-instant",
   "llama-3.2-3b-preview",
   "gemma2-9b-it",
   "llama-3.2-1b-preview"]

/-- The hard-coded reply used when a completion has no content:
`chatCompletion.choices[0]?.message?.content || "..."`. -/
def apologyReply : String :=
  "I apologize, but I couldn\u0027t generate a response."

/-- JavaScript `a || b` on a possibly-missing string: `b` when `a` is
absent or empty (falsy), `a` otherwise. -/
def jsOrElse (content : Option String) (fallback : String) : String :=
  match content with
  | none => fallback
  | some c => if c = "" then fallback else c

/-- Outcome of the fallback loop: the reply/model pair on success, the
models attempted, and `lastError` as left by the loop. -/
structure TryResult where
  result : Option (String × String)
  attempted : List String
  lastError : Option ApiErr
deriving Repr

/-- The `for (const model of modelsToTry)` loop: on success record the
reply (with the apology fallback for empty content) and the model and
stop; on error remember it as `lastError` and continue. -/
def tryModelsAux (p : Provider) (ctx : List ChatTurn) :
    List String → Option ApiErr → TryResult
  | [], le => ⟨none, [], le⟩
  | m :: rest, le =>
    match p ctx m with
    | .ok content => ⟨some (jsOrElse content apologyReply, m), [m], le⟩
    | .error e =>
      let r := tryModelsAux p ctx rest (some e)
      ⟨r.result, m :: r.attempted, r.lastError⟩

/-- The fallback loop started with `lastError = null`. -/
def tryModels (p : Provider) (ctx : List ChatTurn) (ms : List String) :
    TryResult :=
  tryModelsAux p ctx ms none

/-- Outcome of the input validation at the top of
`POST /api/message`. -/
inductive Validation where
  | missing
  | empty
  | tooLong (length : Nat)
  | ok (trimmed : String)
deriving DecidableEq, Repr

/-- JavaScript trim (`String.prototype.trim`): strip leading and
trailing whitespace. -/
def jsTrim (s : String) : String :=
  String.mk
    (((s.data.dropWhile Char.isWhitespace).reverse.dropWhile
        Char.isWhitespace).reverse)

/-- The validation block of `POST /api/message`.  `!message` is the
JavaScript truthiness test, so an empty string fails the presence check
(`Message is required and must be a string`), not the emptiness check;
a missing or non-string body field also fails the presence check. -/
def validate (message : Option String) : Validation :=
  match message with
  | none => .missing
  | some m =>
    if m = "" then .missing
    else
      let userMessage := jsTrim m
      if userMessage.length = 0 then .empty
      else if userMessage.length > 1000 then .tooLong userMessage.length
      else .ok userMessage

/-- The JSON body `POST /api/message` answers with.  `missingError`,
`emptyError` and `tooLongError` are the three 400 validation bodies
(`Message is required and must be a string`, `Message cannot be empty`,
`Message too long (maximum 1000 characters)` with the offending
length); `failure` is the catch-block body with its status code. -/
inductive PostResponse where
  | missingError
  | emptyError
  | tooLongError (length : Nat)
  | success (reply : String) (conversationId : String)
      (modelUsed : String) (isNewConversation : Bool)
  | failure (statusCode : Nat) (error : String) (reply : String)
deriving DecidableEq, Repr

/-- HTTP status of a `PostResponse`. -/
def statusOf : PostResponse → Nat
  | .missingError => 400
  | .emptyError => 400
  | .tooLongError _ => 400
  | .success _ _ _ _ => 200
  | .failure s _ _ => s

/-- The catch block of `POST /api/message`: classify the thrown error
by its `status` (401 and 429 pass through; a provider 400 keeps the
500 status with a substituted message; anything else is a generic 500)
and answer with the static fallback reply. -/
def catchError (e : Option ApiErr) : PostResponse :=
  let fallbackReply :=
    "I\u0027m having temporary technical issues. Our return policy is 30 days for items in original condition."
  match e with
  | some err =>
    match err.status with
    | some 401 =>
      .failure 401
        "API authentication failed. Please check your Groq API key."
        fallbackReply
    | some 429 =>
      .failure 429
        "Too many requests. Please try again in a moment."
        fallbackReply
    | some 400 =>
      .failure 500
        "Service updating. Here is sample response: We have a 30-day return policy for items in original condition."
        fallbackReply
    | _ =>
      .failure 500 "Sorry, I encountered an error. Please try again."
        fallbackReply
  | none =>
    .failure 500 "Sorry, I encountered an error. Please try again."
      fallbackReply

/-- The get-or-create block of `POST /api/message`.  `!convId` is the
truthiness test, so a missing or empty-string id goes straight to the
create branch; otherwise the id is looked up and replaced by a fresh
one when absent.  Returns the resolved id, `isNewConversation`, and
the updated store. -/
def resolveConversation (st : DB) (conversationId : Option String) :
    String × Bool × DB :=
  match conversationId with
  | none =>
    ((freshUuid st).1, true,
      insertConversation (freshUuid st).2 (freshUuid st).1)
  | some cid =>
    if cid = "" then
      ((freshUuid st).1, true,
        insertConversation (freshUuid st).2 (freshUuid st).1)
    else if conversationExists st cid then (cid, false, st)
    else
      ((freshUuid st).1, true,
        insertConversation (freshUuid st).2 (freshUuid st).1)

/-- Observable outcome of one `POST /api/message` request: the JSON
response, the store afterwards, the models the loop attempted, and the
turn list sent to the provider (`[]` when validation failed before the
gateway call). -/
structure PostResult where
  response : PostResponse
  db : DB
  attempted : List String
  sent : List ChatTurn

/-- The `POST /api/message` handler: validate, resolve the
conversation, persist the user turn, build the context from
`recentHistory`, run the fallback loop, persist the assistant turn and
respond; when the loop exhausts all models the thrown `lastError` is
classified by the catch block (the user turn stays persisted). -/
def postMessage (st : DB) (message : Option String)
    (conversationId : Option String) (p : Provider) : PostResult :=
  match validate message with
  | .missing => ⟨.missingError, st, [], []⟩
  | .empty => ⟨.emptyError, st, [], []⟩
  | .tooLong n => ⟨.tooLongError n, st, [], []⟩
  | .ok userMessage =>
    let r := resolveConversation st conversationId
    let convId := r.1
    let isNewConversation := r.2.1
    let st1 := r.2.2
    let st2 := saveMessage st1 convId .user userMessage
    let history := recentHistory st2 convId
    let msgs := buildMessages history userMessage
    let tr := tryModels p msgs modelsToTry
    { response :=
        match tr.result with
        | some (aiReply, modelUsed) =>
          .success aiReply convId modelUsed isNewConversation
        | none => catchError tr.lastError
      db :=
        match tr.result with
        | some (aiReply, _) => saveMessage st2 convId .ai aiReply
        | none => st2
      attempted := tr.attempted
      sent := msgs }

/-- A message row as serialised by the history and export endpoints
(`SELECT id, sender, text, created_at`). -/
structure ApiMessage where
  id : String
  sender : Sender
  text : String
  createdAt : Nat
deriving DecidableEq, Repr

/-- Projection of a stored row to its API serialisation. -/
def toApiMessage (m : MessageRow) : ApiMessage :=
  ⟨m.id, m.sender, m.text, m.createdAt⟩

/-- The JSON body shared by `GET /api/conversation/:id` and the export
endpoint; `success` is `some true` when the field is present and
`none` when the object omits it. -/
structure HistoryBody where
  success : Option Bool
  conversationId : String
  createdAt : Nat
  messageCount : Nat
  messages : List ApiMessage
deriving DecidableEq, Repr

/-- Handler of `GET /api/conversation/:id`: `none` is the 404 branch,
otherwise the body with fields `success`, `conversationId`,
`createdAt`, `messageCount` and `messages`. -/
def getConversation (st : DB) (id : String) : Option HistoryBody :=
  match findConversation st id with
  | none => none
  | some conv =>
    let msgs := (messagesOf st id).map toApiMessage
    some ⟨some true, id, conv.createdAt, msgs.length, msgs⟩

/-- Handler of `GET /api/conversation/:id/export`: `none` is the 404
branch, otherwise the payload with fields `conversationId`,
`createdAt`, `messageCount` and `messages` (no `success` field) paired
with the `Content-Disposition` header value it sets. -/
def exportConversation (st : DB) (id : String) :
    Option (HistoryBody × String) :=
  match findConversation st id with
  | none => none
  | some conv =>
    let msgs := (messagesOf st id).map toApiMessage
    some (⟨none, id, conv.createdAt, msgs.length, msgs⟩,
      "attachment; filename=\"conversation-" ++ id ++ ".json\"")

/-- Handler of `DELETE /api/conversation/:id`: `none` is the 404
branch; otherwise
the conversation row is deleted and `ON DELETE CASCADE` removes every
message row referencing it. -/
def deleteConversation (st : DB) (id : String) : Option DB :=
  if conversationExists st id then
    some { st with
      conversations := st.conversations.filter (fun c => c.id != id)
      messages := st.messages.filter (fun m => m.conversationId != id) }
  else none

/-- Number of stored assistant messages, used to express "exactly one
assistant message is persisted per request". -/
def aiMessageCount (st : DB) : Nat :=
  (st.messages.filter (fun m => m.sender == Sender.ai)).length

/-- A quiescent store: `created_at` stamps are strictly increasing in
insertion order and all lie in a strictly earlier second than the
current clock.  This holds of a store whose writes each landed in
their own second (at least one second passed since the last write);
it is not guaranteed for rows written back-to-back within one second,
which is exactly the granularity gap the timestamp model exposes. -/
def WF (st : DB) : Prop :=
  st.messages.Pairwise (fun a b => a.createdAt < b.createdAt) ∧
    ∀ m ∈ st.messages, m.createdAt < st.clock

/-- The guarantee the second-granular timestamps actually give:
`created_at` stamps are non-decreasing in insertion order and none
lies in the future of the clock.  Unlike `WF`, this is an invariant of
every handler and of wall time passing. -/
def WFm (st : DB) : Prop :=
  st.messages.Pairwise (fun a b => a.createdAt ≤ b.createdAt) ∧
    ∀ m ∈ st.messages, m.createdAt ≤ st.clock

/-- Wall time passing between requests: `CURRENT_TIMESTAMP` moves
forward by `d` seconds (an environment step, not handler code). -/
def advanceClock (st : DB) (d : Nat) : DB :=
  { st with clock := st.clock + d }

/-- Expected sender pattern of a conversation after `n` completed chat
requests: `user, ai, user, ai, ...`. -/
def altSenders : Nat → List Sender
  | 0 => []
  | n + 1 => altSenders n ++ [.user, .ai]

/-- A run of chat requests against one conversation id: each entry is
the message text of the request and the number of seconds of wall time
passing before it. -/
def postRun (p : Provider) (cid : String) :
    List (String × Nat) → DB → DB
  | [], st => st
  | (m, d) :: rest, st =>
    postRun p cid rest
      ((postMessage (advanceClock st d) (some m) (some cid) p).db)

/-- An empty store (fresh `chat.db`). -/
def dbEmpty : DB := ⟨[], [], 0, 0⟩

/-- A store holding one conversation `c0` and no messages. -/
def dbOne : DB := ⟨[⟨"c0", 0⟩], [], 0, 1⟩

/-- A provider on which every model succeeds with a fixed reply. -/
def pOkSome : Provider := fun _ _ => Except.ok (some "All good!")

/-- The content function matching `pOkSome`. -/
def gOkSome : List ChatTurn → String → Option String :=
  fun _ _ => some "All good!"

/-- A provider whose completions always come back without content. -/
def pOkNone : Provider := fun _ _ => Except.ok none

/-- A provider on which the first candidate model fails with a 429 and
every other model succeeds. -/
def pSecond : Provider := fun _ m =>
  if m = "llama-3.1-8b-instant" then Except.error ⟨some 429⟩
  else Except.ok (some "hello")

/-- A 1001-character message consisting solely of spaces. -/
def spaces1001 : String := String.mk (List.replicate 1001 ' ')

/-- A 1001-character message with no surrounding whitespace. -/
def a1001 : String := String.mk (List.replicate 1001 'a')

/-! ### General lemmas about the store model -/

theorem getLast?_append_singleton {α : Type} (l : List α) (a : α) :
    (l ++ [a]).getLast? = some a :=
  List.getLast?_concat l

theorem reverse_take_reverse_suffix {α : Type} (l : List α) (n : Nat) :
    (l.reverse.take n).reverse <:+ l := by
  have h1 : l.reverse.take n <+: l.reverse := List.take_prefix n l.reverse
  have h2 : (l.reverse.take n).reverse <:+ l.reverse.reverse :=
    List.reverse_suffix.mpr h1
  simpa using h2

theorem wf_resolveConversation {st : DB} (conversationId : Option String)
    (h : WF st) : WF (resolveConversation st conversationId).2.2 := by
  cases conversationId with
  | none => exact h
  | some cid =>
    simp only [resolveConversation]
    split_ifs
    · exact h
    · exact h
    · exact h

/-- Inserting into a quiescent store keeps the stamps strictly
increasing: every stored stamp lies in an earlier second than the new
row's stamp.  (The stamp bound of `WF` itself is not preserved, since
the new row carries the current second.) -/
theorem pairwise_lt_saveMessage {st : DB} (convId : String)
    (sender : Sender) (text : String) (h : WF st) :
    ((saveMessage st convId sender text).messages).Pairwise
      (fun a b => a.createdAt < b.createdAt) := by
  obtain ⟨hp, hb⟩ := h
  simp only [saveMessage, insertMessage, freshUuid]
  rw [List.pairwise_append]
  refine ⟨hp, List.pairwise_singleton _ _, ?_⟩
  intro a ha b hbmem
  simp only [List.mem_singleton] at hbmem
  subst hbmem
  exact hb a ha

theorem wfm_insertConversation {st : DB} (id : String) (h : WFm st) :
    WFm (insertConversation st id) :=
  h

theorem wfm_insertMessage {st : DB} (id convId : String)
    (sender : Sender) (text : String) (h : WFm st) :
    WFm (insertMessage st id convId sender text) := by
  obtain ⟨hp, hb⟩ := h
  constructor
  · simp only [insertMessage]
    rw [List.pairwise_append]
    refine ⟨hp, List.pairwise_singleton _ _, ?_⟩
    intro a ha b hbmem
    simp only [List.mem_singleton] at hbmem
    subst hbmem
    exact hb a ha
  · intro m hm
    simp only [insertMessage, List.mem_append, List.mem_singleton] at hm
    rcases hm with hm | rfl
    · exact hb m hm
    · exact Nat.le_refl _

theorem wfm_saveMessage {st : DB} (convId : String) (sender : Sender)
    (text : String) (h : WFm st) :
    WFm (saveMessage st convId sender text) :=
  wfm_insertMessage _ _ _ _ h

theorem wfm_resolveConversation {st : DB} (conversationId : Option String)
    (h : WFm st) : WFm (resolveConversation st conversationId).2.2 := by
  cases conversationId with
  | none => exact wfm_insertConversation _ h
  | some cid =>
    simp only [resolveConversation]
    split_ifs
    · exact wfm_insertConversation _ h
    · exact h
    · exact wfm_insertConversation _ h

theorem wfm_postMessage {st : DB} (message conversationId : Option String)
    (p : Provider) (h : WFm st) :
    WFm (postMessage st message conversationId p).db := by
  cases hv : validate message with
  | missing => simpa [postMessage, hv] using h
  | empty => simpa [postMessage, hv] using h
  | tooLong n => simpa [postMessage, hv] using h
  | ok t =>
    simp only [postMessage, hv]
    split
    · exact wfm_saveMessage _ _ _
        (wfm_saveMessage _ _ _ (wfm_resolveConversation _ h))
    · exact wfm_saveMessage _ _ _ (wfm_resolveConversation _ h)

theorem wfm_advanceClock {st : DB} (d : Nat) (h : WFm st) :
    WFm (advanceClock st d) := by
  obtain ⟨hp, hb⟩ := h
  exact ⟨hp, fun m hm => Nat.le_trans (hb m hm) (Nat.le_add_right _ _)⟩

theorem resolve_messages (st : DB) (conversationId : Option String) :
    ((resolveConversation st conversationId).2.2).messages = st.messages := by
  cases conversationId with
  | none => rfl
  | some cid =>
    simp only [resolveConversation]
    split_ifs <;> rfl

theorem resolve_existing {st : DB} {cid : String} (hcid : cid ≠ "")
    (hex : conversationExists st cid = true) :
    resolveConversation st (some cid) = (cid, false, st) := by
  simp [resolveConversation, hcid, hex]

theorem tryModelsAux_success_after_failures (p : Provider)
    (ctx : List ChatTurn) (m : String) (ms₂ : List String)
    (c : Option String) (hm : p ctx m = Except.ok c) :
    ∀ (ms₁ : List String) (le : Option ApiErr),
      (∀ x ∈ ms₁, ∃ e, p ctx x = Except.error e) →
      (tryModelsAux p ctx (ms₁ ++ m :: ms₂) le).result =
          some (jsOrElse c apologyReply, m) ∧
        (tryModelsAux p ctx (ms₁ ++ m :: ms₂) le).attempted = ms₁ ++ [m] := by
  intro ms₁
  induction ms₁ with
  | nil =>
    intro le _
    simp [tryModelsAux, hm]
  | cons x xs ih =>
    intro le hfail
    obtain ⟨e, he⟩ := hfail x (by simp)
    have hrest := ih (some e) (fun y hy => hfail y (by simp [hy]))
    simp [tryModelsAux, he, hrest.1, hrest.2]

/-! ### Claim theorems -/

/-- C1: for every stored conversation id, `DELETE /api/conversation/:id`
succeeds, and afterwards `GET /api/conversation/:id` returns 404 and
the messages table holds zero rows for that id (the cascade removes all
owned messages). -/
theorem delete_conversation_cascades (st : DB) (id : String)
    (h : conversationExists st id = true) :
    ∃ st', deleteConversation st id = some st' ∧
      getConversation st' id = none ∧
      messagesOf st' id = [] := by
  refine ⟨⟨st.conversations.filter (fun c => c.id != id),
      st.messages.filter (fun m => m.conversationId != id),
      st.counter, st.clock⟩, by simp [deleteConversation, h], ?_, ?_⟩
  · have hfind : (st.conversations.filter (fun c => c.id != id)).find?
        (fun c => c.id == id) = none := by
      rw [List.find?_eq_none]
      intro c hc
      simp only [List.mem_filter, bne_iff_ne, ne_eq] at hc
      simp [hc.2]
    simp [getConversation, findConversation, hfind]
  · simp only [messagesOf]
    rw [List.filter_eq_nil_iff]
    intro m hm
    simp only [List.mem_filter, bne_iff_ne, ne_eq] at hm
    simp [hm.2]

/-- Witness for C1 at a concrete store holding conversation `c0`. -/
theorem delete_conversation_cascades_witness :
    conversationExists dbOne "c0" = true ∧
      ∃ st', deleteConversation dbOne "c0" = some st' ∧
        getConversation st' "c0" = none ∧
        messagesOf st' "c0" = [] :=
  ⟨by decide, delete_conversation_cascades dbOne "c0" (by decide)⟩

/-- C2 counterexample: posting `{message: ""}` does NOT produce the
`empty` validation answer; the empty string is falsy in JavaScript, so
it trips the presence check and yields the `missing`-style 400 body
instead. -/
theorem empty_string_hits_presence_check :
    (postMessage dbEmpty (some "") none pOkSome).response =
        PostResponse.missingError ∧
      (postMessage dbEmpty (some "") none pOkSome).response ≠
        PostResponse.emptyError := by
  decide

/-- C2 amended: both `{message: ""}` and `{message: "   "}` yield
HTTP 400, but the empty string yields the `missing` reason (presence
check, by JS falsiness) while the whitespace-only string yields the
`empty` reason. -/
theorem empty_and_whitespace_yield_400 (st : DB) (p : Provider) :
    (postMessage st (some "") none p).response =
        PostResponse.missingError ∧
      statusOf (postMessage st (some "") none p).response = 400 ∧
      (postMessage st (some "   ") none p).response =
        PostResponse.emptyError ∧
      statusOf (postMessage st (some "   ") none p).response = 400 := by
  have h1 : validate (some "") = Validation.missing := by decide
  have h2 : validate (some "   ") = Validation.empty := by decide
  refine ⟨?_, ?_, ?_, ?_⟩ <;> simp [postMessage, h1, h2, statusOf]

/-- C9 counterexample: for the stored conversation `c0`, the export
body is not the same payload as the `GET /api/conversation/:id` body —
the latter carries a `success` field the export omits. -/
theorem export_body_differs_from_history :
    conversationExists dbOne "c0" = true ∧
      (exportConversation dbOne "c0").map Prod.fst ≠
        getConversation dbOne "c0" := by
  decide

/-- C9 amended: for every conversation id the export body carries
exactly the `GET /api/conversation/:id` body minus its `success`
field (identical conversationId, createdAt, messageCount and message
sequence), and the export sets the `Content-Disposition` attachment
header. -/
theorem export_body_drops_success_field (st : DB) (id : String) :
    (exportConversation st id).map Prod.fst =
        (getConversation st id).map (fun b => { b with success := none }) ∧
      (exportConversation st id).map Prod.snd =
        (getConversation st id).map (fun _ =>
          "attachment; filename=\"conversation-" ++ id ++ ".json\"") := by
  cases h : findConversation st id <;>
    simp [exportConversation, getConversation, h]

/-- C6: whenever validation fails, the failure is reported before any
storage or network I/O: the store is unchanged, no model is attempted,
nothing is sent to the provider, and the response is a 400. -/
theorem validation_short_circuits (st : DB) (message : Option String)
    (conversationId : Option String) (p : Provider)
    (h : ∀ t, validate message ≠ Validation.ok t) :
    (postMessage st message conversationId p).db = st ∧
      (postMessage st message conversationId p).attempted = [] ∧
      (postMessage st message conversationId p).sent = [] ∧
      statusOf (postMessage st message conversationId p).response = 400 := by
  cases hv : validate message with
  | missing => simp [postMessage, hv, statusOf]
  | empty => simp [postMessage, hv, statusOf]
  | tooLong n => simp [postMessage, hv, statusOf]
  | ok t => exact absurd hv (h t)

/-- Witness for C6 at the empty-string message. -/
theorem validation_short_circuits_witness :
    (∀ t, validate (some "") ≠ Validation.ok t) ∧
      (postMessage dbEmpty (some "") none pOkSome).db = dbEmpty ∧
      (postMessage dbEmpty (some "") none pOkSome).attempted = [] ∧
      (postMessage dbEmpty (some "") none pOkSome).sent = [] ∧
      statusOf (postMessage dbEmpty (some "") none pOkSome).response = 400 := by
  have h : ∀ t, validate (some "") ≠ Validation.ok t := by
    intro t hcontra
    rw [show validate (some "") = Validation.missing by decide] at hcontra
    exact Validation.noConfusion hcontra
  exact ⟨h, validation_short_circuits dbEmpty (some "") none pOkSome h⟩

set_option maxRecDepth 20000 in
/-- C7 counterexample: a 1001-character message consisting of spaces
alone yields the `empty` 400 body, not `tooLong` with length 1001: the
length check runs on the trimmed message. -/
theorem whitespace_1001_not_too_long :
    spaces1001.length = 1001 ∧
      (postMessage dbEmpty (some spaces1001) none pOkSome).response =
        PostResponse.emptyError ∧
      (postMessage dbEmpty (some spaces1001) none pOkSome).response ≠
        PostResponse.tooLongError 1001 := by
  decide

/-- C7 amended: posting a message whose trimmed form has length 1001
yields HTTP 400 with the tooLong body carrying `length: 1001` (the
limit and the reported length both apply to the trimmed message). -/
theorem trimmed_length_1001_too_long (st : DB) (p : Provider)
    (s : String) (h : (jsTrim s).length = 1001) :
    (postMessage st (some s) none p).response =
        PostResponse.tooLongError 1001 ∧
      statusOf (postMessage st (some s) none p).response = 400 := by
  have hs : s ≠ "" := by
    intro he
    subst he
    exact absurd h (by decide)
  have hv : validate (some s) = Validation.tooLong 1001 := by
    simp [validate, hs, h]
  simp [postMessage, hv, statusOf]

set_option maxRecDepth 20000 in
/-- Witness for the amended C7 at a 1001-character message with no
surrounding whitespace. -/
theorem trimmed_length_1001_too_long_witness :
    (jsTrim a1001).length = 1001 ∧
      (postMessage dbEmpty (some a1001) none pOkSome).response =
        PostResponse.tooLongError 1001 ∧
      statusOf (postMessage dbEmpty (some a1001) none pOkSome).response
        = 400 :=
  ⟨by decide, trimmed_length_1001_too_long dbEmpty pOkSome a1001 (by decide)⟩

/-- C3: when the first candidate model fails and the second succeeds,
the response reports the second candidate as `modelUsed`, no candidate
beyond the second is attempted, and exactly one assistant message is
persisted for the request. -/
theorem fallback_uses_second_model (st : DB)
    (message conversationId : Option String) (p : Provider) (t : String)
    (e : ApiErr) (c : Option String)
    (hv : validate message = Validation.ok t)
    (h1 : ∀ ctx, p ctx "llama-3.1-8b-instant" = Except.error e)
    (h2 : ∀ ctx, p ctx "llama-3.2-3b-preview" = Except.ok c) :
    (∃ reply cid isNew,
        (postMessage st message conversationId p).response =
          PostResponse.success reply cid "llama-3.2-3b-preview" isNew) ∧
      (postMessage st message conversationId p).attempted =
        ["llama-3.1-8b-instant", "llama-3.2-3b-preview"] ∧
      aiMessageCount (postMessage st message conversationId p).db =
        aiMessageCount st + 1 := by
  have key : ∀ ctx, tryModels p ctx modelsToTry =
      ⟨some (jsOrElse c apologyReply, "llama-3.2-3b-preview"),
        ["llama-3.1-8b-instant", "llama-3.2-3b-preview"], some e⟩ := by
    intro ctx
    simp [tryModels, modelsToTry, tryModelsAux, h1 ctx, h2 ctx]
  refine ⟨⟨jsOrElse c apologyReply,
      (resolveConversation st conversationId).1,
      (resolveConversation st conversationId).2.1, ?_⟩, ?_, ?_⟩
  · simp [postMessage, hv, key]
  · simp [postMessage, hv, key]
  · simp [postMessage, hv, key, aiMessageCount, saveMessage,
      insertMessage, freshUuid, resolve_messages, List.filter_append]

/-- Witness for C3: first model rate-limited, second model answers. -/
theorem fallback_uses_second_model_witness :
    validate (some "Hello") = Validation.ok "Hello" ∧
      (∃ reply cid isNew,
        (postMessage dbEmpty (some "Hello") none pSecond).response =
          PostResponse.success reply cid "llama-3.2-3b-preview" isNew) ∧
      (postMessage dbEmpty (some "Hello") none pSecond).attempted =
        ["llama-3.1-8b-instant", "llama-3.2-3b-preview"] ∧
      aiMessageCount (postMessage dbEmpty (some "Hello") none pSecond).db =
        aiMessageCount dbEmpty + 1 := by
  refine ⟨by decide, ?_⟩
  exact fallback_uses_second_model dbEmpty (some "Hello") none pSecond
    "Hello" ⟨some 429⟩ (some "hello") (by decide)
    (fun _ => rfl) (fun _ => rfl)

/-- C10: when the loop reaches a candidate whose call succeeds but the
completion has empty or missing content, no further candidate is
attempted, the fixed apology string is used as the reply with that
candidate as `modelUsed`, and the apology is persisted as the
conversation's assistant message. -/
theorem empty_content_apology_persisted (st : DB)
    (message conversationId : Option String) (p : Provider) (t : String)
    (ms₁ : List String) (m : String) (ms₂ : List String)
    (hv : validate message = Validation.ok t)
    (hsplit : modelsToTry = ms₁ ++ m :: ms₂)
    (hfail : ∀ ctx, ∀ x ∈ ms₁, ∃ e, p ctx x = Except.error e)
    (hempty : ∀ ctx,
      p ctx m = Except.ok none ∨ p ctx m = Except.ok (some "")) :
    (postMessage st message conversationId p).attempted = ms₁ ++ [m] ∧
      ∃ cid isNew,
        (postMessage st message conversationId p).response =
          PostResponse.success apologyReply cid m isNew ∧
        ((postMessage st message conversationId p).db.messages.map
            (fun x => (x.conversationId, x.sender, x.text))).getLast? =
          some (cid, Sender.ai, apologyReply) := by
  have key : ∀ ctx,
      (tryModels p ctx modelsToTry).result = some (apologyReply, m) ∧
        (tryModels p ctx modelsToTry).attempted = ms₁ ++ [m] := by
    intro ctx
    rcases hempty ctx with h | h
    · have hx := tryModelsAux_success_after_failures p ctx m ms₂ none h
        ms₁ none (hfail ctx)
      rw [hsplit]
      simpa [tryModels, jsOrElse] using hx
    · have hx := tryModelsAux_success_after_failures p ctx m ms₂
        (some "") h ms₁ none (hfail ctx)
      rw [hsplit]
      simpa [tryModels, jsOrElse] using hx
  have hres := fun ctx => (key ctx).1
  have hatt := fun ctx => (key ctx).2
  refine ⟨by simp [postMessage, hv, hatt], ?_⟩
  refine ⟨(resolveConversation st conversationId).1,
    (resolveConversation st conversationId).2.1, ?_, ?_⟩
  · simp [postMessage, hv, hres]
  · simp [postMessage, hv, hres, saveMessage, insertMessage,
      getLast?_append_singleton]

/-- Witness for C10: the first candidate immediately returns a
completion without content. -/
theorem empty_content_apology_persisted_witness :
    (postMessage dbEmpty (some "Hello") none pOkNone).attempted =
        ["llama-3.1-8b-instant"] ∧
      ∃ cid isNew,
        (postMessage dbEmpty (some "Hello") none pOkNone).response =
          PostResponse.success apologyReply cid "llama-3.1-8b-instant"
            isNew ∧
        ((postMessage dbEmpty (some "Hello") none pOkNone).db.messages.map
            (fun x => (x.conversationId, x.sender, x.text))).getLast? =
          some (cid, Sender.ai, apologyReply) := by
  have h := empty_content_apology_persisted dbEmpty (some "Hello") none
    pOkNone "Hello" []
    "llama-3.1-8b-instant"
    ["llama-3.2-3b-preview", "gemma2-9b-it", "llama-3.2-1b-preview"]
    (by decide) rfl (by intro ctx x hx; cases hx)
    (fun _ => Or.inl rfl)
  simpa using h

/-- C5: posting with a conversation id that is not stored creates a
fresh conversation under a newly generated id, answers with
`isNewConversation: true` and the fresh id, and persists no message
under the unknown supplied id. -/
theorem unknown_conversation_id_fresh (st : DB) (m cid t : String)
    (p : Provider) (g : List ChatTurn → String → Option String)
    (hv : validate (some m) = Validation.ok t)
    (hex : conversationExists st cid = false)
    (hfresh : uuidv4 st.counter ≠ cid)
    (hp : ∀ ctx mo, p ctx mo = Except.ok (g ctx mo)) :
    (∃ reply mu,
        (postMessage st (some m) (some cid) p).response =
          PostResponse.success reply (uuidv4 st.counter) mu true) ∧
      conversationExists (postMessage st (some m) (some cid) p).db
        (uuidv4 st.counter) = true ∧
      messagesOf (postMessage st (some m) (some cid) p).db cid =
        messagesOf st cid := by
  have hr : resolveConversation st (some cid) =
      ((freshUuid st).1, true,
        insertConversation (freshUuid st).2 (freshUuid st).1) := by
    by_cases hc : cid = ""
    · simp [resolveConversation, hc]
    · simp [resolveConversation, hc, hex]
  have key : ∀ ctx, tryModels p ctx modelsToTry =
      ⟨some (jsOrElse (g ctx "llama-3.1-8b-instant") apologyReply,
          "llama-3.1-8b-instant"),
        ["llama-3.1-8b-instant"], none⟩ := by
    intro ctx
    simp [tryModels, modelsToTry, tryModelsAux, hp ctx]
  have hbeq : (uuidv4 st.counter == cid) = false :=
    beq_eq_false_iff_ne.mpr hfresh
  refine ⟨?_, ?_, ?_⟩
  · simp only [postMessage, hv]
    simp [hr, key, freshUuid]
  · simp [postMessage, hv, hr, key, conversationExists, saveMessage,
      insertMessage, insertConversation, freshUuid, List.any_append]
  · simp [postMessage, hv, hr, key, messagesOf, saveMessage,
      insertMessage, insertConversation, freshUuid, List.filter_append,
      hbeq]

/-- Witness for C5: the id `ghost` is not stored. -/
theorem unknown_conversation_id_fresh_witness :
    conversationExists dbEmpty "ghost" = false ∧
      (∃ reply mu,
        (postMessage dbEmpty (some "Hello") (some "ghost")
            pOkSome).response =
          PostResponse.success reply (uuidv4 dbEmpty.counter) mu true) ∧
      conversationExists
        (postMessage dbEmpty (some "Hello") (some "ghost") pOkSome).db
        (uuidv4 dbEmpty.counter) = true ∧
      messagesOf
        (postMessage dbEmpty (some "Hello") (some "ghost") pOkSome).db
        "ghost" = messagesOf dbEmpty "ghost" :=
  ⟨by decide,
    unknown_conversation_id_fresh dbEmpty "Hello" "ghost" "Hello"
      pOkSome gOkSome (by decide) (by decide) (by decide)
      (fun _ _ => rfl)⟩

/-- C4: whenever a request reaches the gateway call, the sent turn
sequence is exactly one fixed system turn, then at most the 6 most
recently stored messages of the conversation (a suffix of its
chronological message list, in oldest-first order), then the current
user turn. -/
theorem context_window_six_chronological (st : DB)
    (message conversationId : Option String) (p : Provider) (t : String)
    (hv : validate message = Validation.ok t) (hwf : WF st) :
    ∃ hist : List MessageRow,
      (postMessage st message conversationId p).sent =
          ⟨Role.system, STORE_INFO⟩ ::
            (hist.map (fun mm => ⟨roleOfSender mm.sender, mm.text⟩) ++
              [⟨Role.user, t⟩]) ∧
        hist.length ≤ 6 ∧
        hist.Pairwise (fun a b => a.createdAt < b.createdAt) ∧
        hist <:+ messagesOf
          (saveMessage (resolveConversation st conversationId).2.2
            (resolveConversation st conversationId).1 Sender.user t)
          (resolveConversation st conversationId).1 := by
  refine ⟨recentHistory
      (saveMessage (resolveConversation st conversationId).2.2
        (resolveConversation st conversationId).1 Sender.user t)
      (resolveConversation st conversationId).1, ?_, ?_, ?_, ?_⟩
  · simp [postMessage, hv, buildMessages]
  · have hlen : (recentHistory
        (saveMessage (resolveConversation st conversationId).2.2
          (resolveConversation st conversationId).1 Sender.user t)
        (resolveConversation st conversationId).1).length =
        min 6 (messagesOf
          (saveMessage (resolveConversation st conversationId).2.2
            (resolveConversation st conversationId).1 Sender.user t)
          (resolveConversation st conversationId).1).length := by
      simp [recentHistory, List.length_take]
    rw [hlen]
    exact Nat.min_le_left _ _
  · have hpair : ((saveMessage (resolveConversation st conversationId).2.2
        (resolveConversation st conversationId).1 Sender.user
        t).messages).Pairwise
        (fun a b => a.createdAt < b.createdAt) :=
      pairwise_lt_saveMessage _ _ _ (wf_resolveConversation _ hwf)
    have hpw : (messagesOf
        (saveMessage (resolveConversation st conversationId).2.2
          (resolveConversation st conversationId).1 Sender.user t)
        (resolveConversation st conversationId).1).Pairwise
        (fun a b => a.createdAt < b.createdAt) :=
      List.Pairwise.sublist (List.filter_sublist _) hpair
    exact List.Pairwise.sublist
      (reverse_take_reverse_suffix _ 6).sublist hpw
  · exact reverse_take_reverse_suffix _ 6

/-- Witness for C4 at a store holding the empty conversation `c0`. -/
theorem context_window_six_chronological_witness :
    validate (some "Hello") = Validation.ok "Hello" ∧ WF dbOne ∧
      ∃ hist : List MessageRow,
        (postMessage dbOne (some "Hello") (some "c0") pOkSome).sent =
            ⟨Role.system, STORE_INFO⟩ ::
              (hist.map (fun mm => ⟨roleOfSender mm.sender, mm.text⟩) ++
                [⟨Role.user, "Hello"⟩]) ∧
          hist.length ≤ 6 ∧
          hist.Pairwise (fun a b => a.createdAt < b.createdAt) ∧
          hist <:+ messagesOf
            (saveMessage (resolveConversation dbOne (some "c0")).2.2
              (resolveConversation dbOne (some "c0")).1 Sender.user
              "Hello")
            (resolveConversation dbOne (some "c0")).1 := by
  have hwf : WF dbOne :=
    ⟨List.Pairwise.nil, fun m hm => absurd hm (List.not_mem_nil m)⟩
  exact ⟨by decide, hwf,
    context_window_six_chronological dbOne (some "Hello") (some "c0")
      pOkSome "Hello" (by decide) hwf⟩

/-- Length of the expected alternating sender pattern. -/
theorem altSenders_length (n : Nat) : (altSenders n).length = 2 * n := by
  induction n with
  | zero => rfl
  | succ k ih =>
    simp only [altSenders, List.length_append, List.length_cons,
      List.length_nil, ih]
    omega

/-- One successful chat request against an existing conversation
appends exactly one user row and one assistant row, both stamped with
the current second (the clock does not advance during the request),
and touches nothing else. -/
theorem postMessage_existing_append (st : DB) (cid m t : String)
    (p : Provider) (g : List ChatTurn → String → Option String)
    (hv : validate (some m) = Validation.ok t) (hcid : cid ≠ "")
    (hex : conversationExists st cid = true)
    (hp : ∀ ctx mo, p ctx mo = Except.ok (g ctx mo)) :
    ∃ uid aid reply,
      (postMessage st (some m) (some cid) p).db =
        { st with
          messages := st.messages ++
            [⟨uid, cid, Sender.user, t, st.clock⟩,
             ⟨aid, cid, Sender.ai, reply, st.clock⟩]
          counter := st.counter + 2 } := by
  have hr := resolve_existing hcid hex
  have key : ∀ ctx, tryModels p ctx modelsToTry =
      ⟨some (jsOrElse (g ctx "llama-3.1-8b-instant") apologyReply,
          "llama-3.1-8b-instant"),
        ["llama-3.1-8b-instant"], none⟩ := by
    intro ctx
    simp [tryModels, modelsToTry, tryModelsAux, hp ctx]
  refine ⟨uuidv4 st.counter, uuidv4 (st.counter + 1),
    jsOrElse (g (buildMessages
        (recentHistory (saveMessage st cid Sender.user t) cid) t)
      "llama-3.1-8b-instant") apologyReply, ?_⟩
  simp [postMessage, hv, hr, key, saveMessage, insertMessage, freshUuid]

/-- The alternating pattern can also be peeled from the front. -/
theorem altSenders_cons (n : Nat) :
    altSenders (n + 1) = Sender.user :: Sender.ai :: altSenders n := by
  induction n with
  | zero => rfl
  | succ k ih =>
    calc altSenders (k + 2) = altSenders (k + 1) ++ [.user, .ai] := rfl
    _ = (Sender.user :: Sender.ai :: altSenders k) ++ [.user, .ai] := by
        rw [ih]
    _ = Sender.user :: Sender.ai :: (altSenders k ++ [.user, .ai]) := by
        simp
    _ = Sender.user :: Sender.ai :: altSenders (k + 1) := rfl

/-- C8 counterexample: one successful chat request against the stored
conversation c0 leaves its two rows (user then assistant) carrying the
SAME created_at stamp, because CURRENT_TIMESTAMP is second-granular
and both inserts of one fast request land in the same second, so the
message sequence GET returns is not strictly increasing in
created_at. -/
theorem assistant_turn_shares_user_timestamp :
    ∃ body,
      getConversation
          ((postMessage dbOne (some "Hello") (some "c0") pOkSome).db)
          "c0" = some body ∧
        body.messageCount = 2 ∧
        body.messages.map (fun x => (x.sender, x.createdAt)) =
          [(Sender.user, 1), (Sender.ai, 1)] ∧
        ¬ body.messages.Pairwise
          (fun a b => a.createdAt < b.createdAt) := by
  refine ⟨_, rfl, by decide, by decide, by decide⟩

/-- Invariant of a run of successful chat requests against an existing
conversation, with arbitrary message texts and arbitrary seconds of
wall time between requests: the conversation table is unchanged, the
store stays time-ordered, and the conversation gains the alternating
sender pattern. -/
theorem postRun_invariant (cid : String) (p : Provider)
    (g : List ChatTurn → String → Option String) (hcid : cid ≠ "")
    (hp : ∀ ctx mo, p ctx mo = Except.ok (g ctx mo)) :
    ∀ (run : List (String × Nat)) (st : DB),
      (∀ e ∈ run, ∃ t, validate (some e.1) = Validation.ok t) →
      conversationExists st cid = true → WFm st →
      (postRun p cid run st).conversations = st.conversations ∧
        WFm (postRun p cid run st) ∧
        (messagesOf (postRun p cid run st) cid).map MessageRow.sender =
          (messagesOf st cid).map MessageRow.sender ++
            altSenders run.length := by
  intro run
  induction run with
  | nil =>
    intro st _ _ hwfm
    exact ⟨rfl, hwfm, by simp [postRun, altSenders]⟩
  | cons e rest ih =>
    intro st hv hex hwfm
    obtain ⟨m, d⟩ := e
    obtain ⟨t, hvt⟩ := hv (m, d) (by simp)
    have hexA : conversationExists (advanceClock st d) cid = true := hex
    have hwfA : WFm (advanceClock st d) := wfm_advanceClock d hwfm
    obtain ⟨uid, aid, reply, hdb⟩ := postMessage_existing_append
      (advanceClock st d) cid m t p g hvt hcid hexA hp
    have hstep : postRun p cid ((m, d) :: rest) st =
        postRun p cid rest
          ((postMessage (advanceClock st d) (some m) (some cid) p).db) :=
      rfl
    have hconvdb :
        ((postMessage (advanceClock st d) (some m)
            (some cid) p).db).conversations = st.conversations := by
      rw [hdb]
      rfl
    have hexdb : conversationExists
        ((postMessage (advanceClock st d) (some m) (some cid) p).db)
        cid = true := by
      simp only [conversationExists] at hex ⊢
      rw [hconvdb]
      exact hex
    have hwfdb : WFm
        ((postMessage (advanceClock st d) (some m) (some cid) p).db) :=
      wfm_postMessage _ _ _ hwfA
    have hmdb : messagesOf
        ((postMessage (advanceClock st d) (some m) (some cid) p).db)
        cid =
        messagesOf st cid ++
          [⟨uid, cid, Sender.user, t, st.clock + d⟩,
           ⟨aid, cid, Sender.ai, reply, st.clock + d⟩] := by
      rw [hdb]
      simp [messagesOf, advanceClock, List.filter_append]
    obtain ⟨ihconv, ihwfm, ihmap⟩ := ih
      ((postMessage (advanceClock st d) (some m) (some cid) p).db)
      (fun e he => hv e (by simp [he])) hexdb hwfdb
    refine ⟨?_, ?_, ?_⟩
    · rw [hstep, ihconv, hconvdb]
    · rw [hstep]
      exact ihwfm
    · rw [hstep, ihmap, hmdb]
      simp [altSenders_cons]

/-- C8 amended: after a run of successful chat requests in one
conversation (any message texts, any delays between requests),
GET /api/conversation/:id returns exactly 2N messages, alternating
user, ai, user, ai, and so on, in non-decreasing createdAt order
(listed in insertion order, which breaks timestamp ties); createdAt is
second-granular, so consecutive rows may share a stamp and strict
increase is not guaranteed. -/
theorem history_after_n_messages (st : DB) (cid : String)
    (p : Provider) (g : List ChatTurn → String → Option String)
    (run : List (String × Nat))
    (hv : ∀ e ∈ run, ∃ t, validate (some e.1) = Validation.ok t)
    (hcid : cid ≠ "") (hex : conversationExists st cid = true)
    (h0 : messagesOf st cid = []) (hwfm : WFm st)
    (hp : ∀ ctx mo, p ctx mo = Except.ok (g ctx mo)) :
    ∃ body, getConversation (postRun p cid run st) cid = some body ∧
      body.messageCount = 2 * run.length ∧
      body.messages.length = 2 * run.length ∧
      body.messages.map ApiMessage.sender = altSenders run.length ∧
      body.messages.Pairwise (fun a b => a.createdAt ≤ b.createdAt) := by
  obtain ⟨hconv, hwfm', hmap⟩ :=
    postRun_invariant cid p g hcid hp run st hv hex hwfm
  rw [h0] at hmap
  simp only [List.map_nil, List.nil_append] at hmap
  have hpw : (messagesOf (postRun p cid run st) cid).Pairwise
      (fun a b => a.createdAt ≤ b.createdAt) :=
    List.Pairwise.sublist (List.filter_sublist _) hwfm'.1
  have hsome : ((postRun p cid run st).conversations.find?
      (fun c => c.id == cid)).isSome := by
    have hany : ((postRun p cid run st).conversations.any
        (fun c => c.id == cid)) = true := by
      rw [hconv]
      exact hex
    rw [List.any_eq_true] at hany
    obtain ⟨x, hx, hpx⟩ := hany
    rw [List.find?_isSome]
    exact ⟨x, hx, hpx⟩
  obtain ⟨conv, hc⟩ := Option.isSome_iff_exists.mp hsome
  have hlen : (messagesOf (postRun p cid run st) cid).length =
      2 * run.length := by
    have hml := congrArg List.length hmap
    simpa [altSenders_length] using hml
  refine ⟨⟨some true, cid, conv.createdAt,
    ((messagesOf (postRun p cid run st) cid).map toApiMessage).length,
    (messagesOf (postRun p cid run st) cid).map toApiMessage⟩,
    ?_, ?_, ?_, ?_, ?_⟩
  · simp [getConversation, findConversation] at hc ⊢
    simp [hc]
  · simp [hlen]
  · simp [hlen]
  · rw [List.map_map]
    exact hmap
  · rw [List.pairwise_map]
    exact hpw

/-- Witness for the amended C8: two requests with different texts and
five seconds of wall time between them, against the empty conversation
c0. -/
theorem history_after_n_messages_witness :
    conversationExists dbOne "c0" = true ∧
      messagesOf dbOne "c0" = [] ∧
      ∃ body, getConversation
          (postRun pOkSome "c0"
            [("Hello", 0), ("Where is my order", 5)] dbOne) "c0" =
          some body ∧
        body.messageCount =
          2 * [("Hello", 0), ("Where is my order", 5)].length ∧
        body.messages.length =
          2 * [("Hello", 0), ("Where is my order", 5)].length ∧
        body.messages.map ApiMessage.sender =
          altSenders [("Hello", 0), ("Where is my order", 5)].length ∧
        body.messages.Pairwise
          (fun a b => a.createdAt ≤ b.createdAt) := by
  have hwfm : WFm dbOne :=
    ⟨List.Pairwise.nil, fun m hm => absurd hm (List.not_mem_nil m)⟩
  have hv : ∀ e ∈ [("Hello", 0), ("Where is my order", 5)],
      ∃ t, validate (some e.1) = Validation.ok t := by
    intro e he
    simp only [List.mem_cons, List.not_mem_nil, or_false] at he
    rcases he with rfl | rfl
    · exact ⟨"Hello", by decide⟩
    · exact ⟨"Where is my order", by decide⟩
  exact ⟨by decide, by decide,
    history_after_n_messages dbOne "c0" pOkSome gOkSome
      [("Hello", 0), ("Where is my order", 5)] hv (by decide)
      (by decide) (by decide) hwfm (fun _ _ => rfl)⟩
